import Mathlib

/-!
Verification of the SHAC player core (shac-decoder / spatial-audio engine).

The JavaScript sources are shallowly embedded:
* byte buffers are `List ℕ` (each entry a byte value `< 256`);
* JS numbers are real numbers `ℝ` (the spec's formulas are exact mathematics);
* fallible DataView reads become `Except FormatErr`;
* JS typed-array out-of-range *writes* are silently dropped, which is exactly
  the behaviour of `List.set`;
* the JS builtins `JSON.parse` and `TextDecoder.decode` are universally
  quantified function parameters, since they are host functions, not
  repository code.
-/

namespace Shac

/-! ## Format parsing (`SHACDecoder.readHeader` / `buildLayerIndex`) -/

/-- Error outcomes of the parsing pass.  `badMagic`, `unsupportedVersion` are
thrown explicitly by `readHeader`; `rangeError` models the exception a JS
`DataView`/`Uint8Array` access raises when it goes past the end of the buffer.
`truncated` models the spec's `FormatError::Truncated`; it is part of the
error vocabulary so that theorems can speak about it, the decoder code never
produces it. -/
inductive FormatErr where
  | badMagic
  | unsupportedVersion
  | truncated
  | rangeError
  deriving DecidableEq, Repr

/-- `DataView.getUint8`: one byte, bounds-checked. -/
def getU8 (b : List ℕ) (i : ℕ) : Except FormatErr ℕ :=
  if h : i < b.length then .ok (b.get ⟨i, h⟩) else .error .rangeError

/-- `DataView.getUint16(i, true)`: two bytes, little endian. -/
def getU16 (b : List ℕ) (i : ℕ) : Except FormatErr ℕ := do
  let x ← getU8 b i
  let y ← getU8 b (i + 1)
  return x + 256 * y

/-- `DataView.getUint32(i, true)`: four bytes, little endian. -/
def getU32 (b : List ℕ) (i : ℕ) : Except FormatErr ℕ := do
  let x ← getU16 b i
  let y ← getU16 b (i + 2)
  return x + 65536 * y

/-- `new Uint8Array(buffer, i, len)`: a bounds-checked byte slice. -/
def sliceBytes (b : List ℕ) (i len : ℕ) : Except FormatErr (List ℕ) :=
  if i + len ≤ b.length then .ok ((b.drop i).take len) else .error .rangeError

/-- The parsed 26-byte header (`SHACDecoder.readHeader`). -/
structure Header where
  version : ℕ
  order : ℕ
  n_channels : ℕ
  sample_rate : ℕ
  bit_depth : ℕ
  n_samples : ℕ
  n_layers : ℕ
  normalization : ℕ
  deriving DecidableEq, Repr

/-- `SHACDecoder.readHeader`: magic check, field reads, version check. -/
def readHeader (b : List ℕ) : Except FormatErr Header := do
  let magic ← sliceBytes b 0 4
  if magic ≠ [0x53, 0x48, 0x41, 0x43] then throw .badMagic
  else do
    let version ← getU16 b 4
    let order ← getU16 b 6
    let n_channels ← getU16 b 8
    let sample_rate ← getU32 b 10
    let bit_depth ← getU32 b 14
    let n_samples ← getU32 b 18
    let n_layers ← getU16 b 22
    let normalization ← getU16 b 24
    if version ≠ 1 then throw .unsupportedVersion
    else
      return ⟨version, order, n_channels, sample_rate, bit_depth, n_samples, n_layers,
        normalization⟩

/-- One record of `SHACDecoder.layerIndex`. -/
structure LayerEntry where
  id : List ℕ
  headerOffset : ℕ
  dataOffset : ℕ
  dataSize : ℕ
  metadataLength : ℕ
  deriving DecidableEq, Repr

/-- The loop body of `SHACDecoder.buildLayerIndex`, recursing over the number
of remaining layers while threading the running byte offset.  Note that the
source computes the audio-data size from header fields and *advances past it
without any bounds check*. -/
def buildLayerIndexAux (b : List ℕ) (hdr : Header) : ℕ → ℕ → Except FormatErr (List LayerEntry)
  | 0, _ => .ok []
  | n + 1, offset => do
    let idLength ← getU16 b offset
    let metadataLength ← getU32 b (offset + 2)
    let idBytes ← sliceBytes b (offset + 6) idLength
    -- offset after skipping the id bytes and the metadata bytes
    let offset2 := offset + 6 + idLength + metadataLength
    let bytesPerSample := if hdr.bit_depth = 16 then 2 else 4
    let audioDataSize := hdr.n_channels * hdr.n_samples * bytesPerSample
    let entry : LayerEntry :=
      ⟨idBytes, offset2 - metadataLength - idLength - 6, offset2, audioDataSize, metadataLength⟩
    let rest ← buildLayerIndexAux b hdr n (offset2 + audioDataSize)
    return entry :: rest

/-- `SHACDecoder.buildLayerIndex`: walk the buffer from byte 26. -/
def buildLayerIndex (b : List ℕ) (hdr : Header) : Except FormatErr (List LayerEntry) :=
  buildLayerIndexAux b hdr hdr.n_layers 26

/-- The header+index part of `SHACDecoder.decode`. -/
def decodeIndex (b : List ℕ) : Except FormatErr (Header × List LayerEntry) := do
  let hdr ← readHeader b
  let idx ← buildLayerIndex b hdr
  return (hdr, idx)

/-! ## 16-bit sample reading (`SHACDecoder.readAudioDataOptimized`)

JS bitwise operators work on 32-bit two's-complement integers; they are
modelled on `ℤ` with explicit reduction mod `2 ^ 32`. -/

/-- Interpret a 32-bit two's-complement bit pattern (`ToInt32`). -/
def jsToUint32 (n : ℤ) : ℕ := (n % 4294967296).toNat

/-- JS `ToInt32`: reduce mod `2^32`, then read as signed. -/
def jsToInt32 (n : ℤ) : ℤ :=
  let u := jsToUint32 n
  if u < 2147483648 then u else (u : ℤ) - 4294967296

/-- JS `a << k`. -/
def jsShl (a : ℤ) (k : ℕ) : ℤ := jsToInt32 (a * 2 ^ k)

/-- JS `a | b`: bitwise or of the 32-bit patterns, read back as signed. -/
def jsOr (a b : ℤ) : ℤ := jsToInt32 ((jsToUint32 a) ||| (jsToUint32 b))

/-- `DataView.getInt8`: a byte read as a signed 8-bit integer. -/
def getInt8JS (byte : ℕ) : ℤ := if byte < 128 then byte else (byte : ℤ) - 256

/-- The byte-wise (unaligned) 16-bit sample decode:
`value = (high << 8) | low`, normalized by `/ 32767`. -/
noncomputable def unalignedSample16 (low high : ℕ) : ℝ :=
  (jsOr (jsShl (getInt8JS high) 8) low : ℝ) / 32767.0

/-- An `Int16Array` element on a little-endian host: two bytes, low first,
read as a signed 16-bit integer. -/
def int16LE (b0 b1 : ℕ) : ℤ :=
  let u := b0 + 256 * b1
  if u < 32768 then u else (u : ℤ) - 65536

/-- The aligned (typed-array view) 16-bit sample decode. -/
noncomputable def alignedSample16 (b0 b1 : ℕ) : ℝ :=
  (int16LE b0 b1 : ℝ) / 32767.0

/-- The unaligned branch of `readAudioDataOptimized` for `bitDepth = 16`:
channel-major deinterleave using byte-wise reads.  Byte fetches are modelled
with `getD _ 0`; the claims about this function carry an in-bounds hypothesis
(out-of-range `DataView` reads throw in JS and decode no payload). -/
noncomputable def readUnaligned16 (buf : List ℕ) (offset numChannels numSamples : ℕ) :
    List (List ℝ) :=
  (List.range numChannels).map fun ch =>
    (List.range numSamples).map fun s =>
      let idx := (ch * numSamples + s) * 2
      unalignedSample16 (buf.getD (offset + idx) 0) (buf.getD (offset + idx + 1) 0)

/-- The aligned branch of `readAudioDataOptimized` for `bitDepth = 16`:
an `Int16Array` view starting at `offset`, deinterleaved channel-major
(`int16Data[ch * numSamples + s]` covers bytes `offset + 2*idx`, `offset + 2*idx + 1`). -/
noncomputable def readAligned16 (buf : List ℕ) (offset numChannels numSamples : ℕ) :
    List (List ℝ) :=
  (List.range numChannels).map fun ch =>
    (List.range numSamples).map fun s =>
      let idx := ch * numSamples + s
      alignedSample16 (buf.getD (offset + 2 * idx) 0) (buf.getD (offset + 2 * idx + 1) 0)

/-- `readAudioDataOptimized`, 16-bit case: dispatch on the alignment of the
payload offset exactly as the source does. -/
noncomputable def readAudioData16 (buf : List ℕ) (offset numChannels numSamples : ℕ) :
    List (List ℝ) :=
  if offset % 2 ≠ 0 then readUnaligned16 buf offset numChannels numSamples
  else readAligned16 buf offset numChannels numSamples

/-- Spec-side decode (`spec.md` §4.2/§6): sample `s` of channel `ch` is the
signed little-endian 16-bit integer at channel-major position
`ch * numSamples + s`, divided by 32767. -/
noncomputable def specDecode16 (buf : List ℕ) (offset numChannels numSamples : ℕ) :
    List (List ℝ) :=
  (List.range numChannels).map fun ch =>
    (List.range numSamples).map fun s =>
      let pos := ch * numSamples + s
      (int16LE (buf.getD (offset + 2 * pos) 0) (buf.getD (offset + 2 * pos + 1) 0) : ℝ) / 32767.0

/-- `readAudioDataOptimized`, 32-bit case, unaligned and aligned branches both
deinterleave little-endian IEEE floats; IEEE decoding itself is a host
operation and is abstracted as the parameter `f32`. -/
noncomputable def readAudioData32 (f32 : ℕ → ℕ → ℕ → ℕ → ℝ)
    (buf : List ℕ) (offset numChannels numSamples : ℕ) : List (List ℝ) :=
  (List.range numChannels).map fun ch =>
    (List.range numSamples).map fun s =>
      let idx := (ch * numSamples + s) * 4
      f32 (buf.getD (offset + idx) 0) (buf.getD (offset + idx + 1) 0)
        (buf.getD (offset + idx + 2) 0) (buf.getD (offset + idx + 3) 0)

/-- `SHACDecoder.readAudioDataOptimized`. -/
noncomputable def readAudioDataOptimized (f32 : ℕ → ℕ → ℕ → ℕ → ℝ)
    (buf : List ℕ) (offset numChannels numSamples bitDepth : ℕ) : List (List ℝ) :=
  if bitDepth = 16 then readAudioData16 buf offset numChannels numSamples
  else readAudioData32 f32 buf offset numChannels numSamples

/-! ## Layer metadata parsing (`SHACDecoder.readLayerOptimized`) -/

/-- Parsed layer metadata; the fields the decoder's fallback default sets. -/
structure LayerMetadata where
  position : List ℝ
  gain : ℝ

/-- The fallback default `{ position: [0, 0, 0], gain: 1.0 }`. -/
noncomputable def defaultMetadata : LayerMetadata := ⟨[0, 0, 0], 1.0⟩

/-- The single-quote character `'` (code 39). -/
def singleQuote : String := (Char.ofNat 39).toString

/-- The legacy-format normalization applied before the second parse attempt:
`.replace(/'/g,'"').replace(/\(/g,'[').replace(/\)/g,']')`
`.replace(/True/g,'true').replace(/False/g,'false').replace(/None/g,'null')`. -/
def normalizeMetadataStr (s : String) : String :=
  (((((s.replace singleQuote "\"").replace "(" "[").replace ")" "]").replace
    "True" "true").replace "False" "false").replace "None" "null"

/-- The try/catch cascade of `readLayerOptimized`: strict parse, then parse of
the normalized text, then the default.  `jsonParse` abstracts the host's
`JSON.parse` (`none` = the parse threw). -/
noncomputable def parseLayerMetadata (jsonParse : String → Option LayerMetadata) (s : String) : LayerMetadata :=
  match jsonParse s with
  | some m => m
  | none =>
    match jsonParse (normalizeMetadataStr s) with
    | some m => m
    | none => defaultMetadata

/-- The decoded layer produced by `readLayerOptimized` (id bytes, metadata,
per-channel sample buffers). -/
structure DecodedLayer where
  id : List ℕ
  metadata : LayerMetadata
  audioData : List (List ℝ)
  samplesPerChannel : ℕ

/-- `SHACDecoder.readLayerOptimized`: re-read the id, read and parse the
metadata bytes, then decode the audio payload.  `utf8` abstracts
`TextDecoder.decode`. -/
noncomputable def readLayerOptimized (jsonParse : String → Option LayerMetadata)
    (utf8 : List ℕ → String) (f32 : ℕ → ℕ → ℕ → ℕ → ℝ)
    (buf : List ℕ) (hdr : Header) (info : LayerEntry) : Except FormatErr DecodedLayer := do
  let offset := info.headerOffset
  let idLength ← getU16 buf offset
  -- offset += 2; offset += 4 (metadata length already known)
  let idBytes ← sliceBytes buf (offset + 6) idLength
  let metadataBytes ← sliceBytes buf (offset + 6 + idLength) info.metadataLength
  let metadata := parseLayerMetadata jsonParse (utf8 metadataBytes)
  let audioData := readAudioDataOptimized f32 buf info.dataOffset hdr.n_channels hdr.n_samples hdr.bit_depth
  return ⟨idBytes, metadata, audioData, hdr.n_samples⟩

/-! ## Decoder spherical harmonics
(`SHACDecoder.precomputeNormalizationFactors` / `computeAssociatedLegendre` /
`computeSphericalHarmonicsVectorized`) -/

/-- Functional update of a two-index table, modelling `P[i][j] = v`. -/
noncomputable def updM (P : ℕ → ℕ → ℝ) (i j : ℕ) (v : ℝ) : ℕ → ℕ → ℝ :=
  fun a b => if a = i ∧ b = j then v else P a b

/-- `SHACDecoder.computeAssociatedLegendre`: the `(order+1)×(order+1)` table
filled by the three loops of the source (diagonal seeds with the running odd
factor `fact`, the `P[m+1][m]` step, then the three-term recurrence). -/
noncomputable def computeAssociatedLegendre (order : ℕ) (x : ℝ) : ℕ → ℕ → ℝ :=
  let P0 : ℕ → ℕ → ℝ := fun a b => if a = 0 ∧ b = 0 then 1 else 0
  let somx2 := Real.sqrt ((1 - x) * (1 + x))
  let P1 :=
    if 0 < order then
      ((List.range order).foldl
        (fun (acc : (ℕ → ℕ → ℝ) × ℝ) k =>
          let m := k + 1
          (updM acc.1 m m (-acc.1 (m - 1) (m - 1) * acc.2 * somx2), acc.2 + 2))
        (P0, 1)).1
    else P0
  let P2 := (List.range order).foldl
    (fun P m => updM P (m + 1) m (x * (2 * (m : ℝ) + 1) * P m m)) P1
  (List.range (order - 1)).foldl
    (fun P m =>
      (List.range (order - 1 - m)).foldl
        (fun P j =>
          let l := m + 2 + j
          updM P l m
            (((2 * (l : ℝ) - 1) * x * P (l - 1) m - ((l : ℝ) + (m : ℝ) - 1) * P (l - 2) m) /
              ((l : ℝ) - (m : ℝ))))
        P)
    P2

/-- The factorial table `factorials[0..7]` built by the constructor's loop
(`maxOrder = 3`). -/
noncomputable def factorialsTable : List ℝ :=
  (List.range (2 * 3 + 1)).foldl (fun acc k => acc ++ [acc.getD k 0 * ((k : ℝ) + 1)]) [1]

/-- `SHACDecoder.precomputeNormalizationFactors(3)`: the SN3D-style factor for
each `(l, m)`, `0 ≤ l ≤ 3`, `-l ≤ m ≤ l` (list index `m + l`). -/
noncomputable def normalizationFactors : List (List ℝ) :=
  (List.range (3 + 1)).map fun l =>
    (List.range (2 * l + 1)).map fun (k : ℕ) =>
      let absM := ((k : ℤ) - l).natAbs
      Real.sqrt ((2 * (l : ℝ) + 1) * factorialsTable.getD (l - absM) 0 /
        (4 * Real.pi * factorialsTable.getD (l + absM) 0))

/-- The decoder's table lookup `this.normalizationFactors[l][m]`.  (For
`l > 3` the JS lookup throws, so theorems about the decoder restrict to the
precomputed range `l ≤ 3`.) -/
noncomputable def normLookup (l : ℕ) (m : ℤ) : ℝ :=
  (normalizationFactors.getD l []).getD (m + l).toNat 0

/-- `SHACDecoder.computeSphericalHarmonicsVectorized` (the cache is pure
memoization and is not modelled): all `(order+1)²` coefficients in `(l, m)`
order, `m` from `-l` to `l`. -/
noncomputable def computeSphericalHarmonicsVectorized (order : ℕ) (azimuth elevation : ℝ) :
    List ℝ :=
  let sinEl := Real.sin elevation
  let P := computeAssociatedLegendre order sinEl
  (List.range (order + 1)).flatMap fun l =>
    (List.range (2 * l + 1)).map fun (k : ℕ) =>
      let m : ℤ := (k : ℤ) - l
      let absM := m.natAbs
      let norm := normLookup l m
      let sh := norm * P l absM
      if 0 < m then sh * (Real.sqrt 2 * Real.cos ((m : ℝ) * azimuth))
      else if m < 0 then sh * (Real.sqrt 2 * Real.sin ((absM : ℝ) * azimuth))
      else sh

/-! ## Spec-side basis formula (spec §4.3) -/

/-- Spec §4.3: the diagonal seed `P(m,m)` of the standard associated-Legendre
recurrence, `(-1)^m (2m-1)!! (1-x²)^{m/2}` written recursively. -/
noncomputable def legendreDiag (x : ℝ) : ℕ → ℝ
  | 0 => 1
  | m + 1 => -(2 * ((m : ℝ) + 1) - 1) * Real.sqrt ((1 - x) * (1 + x)) * legendreDiag x m

/-- Spec §4.3: associated Legendre values by the standard three-term
recurrence (seed `P(m,m)`, then `P(m+1,m)`, then climb `l`). -/
noncomputable def legendreP (x : ℝ) (m : ℕ) (l : ℕ) : ℝ :=
  if _h1 : l < m then 0
  else if _h2 : l = m then legendreDiag x m
  else if _h3 : l = m + 1 then x * (2 * (m : ℝ) + 1) * legendreDiag x m
  else
    ((2 * (l : ℝ) - 1) * x * legendreP x m (l - 1) -
        ((l : ℝ) + (m : ℝ) - 1) * legendreP x m (l - 2)) /
      ((l : ℝ) - (m : ℝ))
termination_by l
decreasing_by all_goals omega

/-- Spec §4.3: `coefficient = normalization(l,m) × P(l,|m|)(sin elevation) ×
{1 | √2·cos(mφ) | √2·sin(|m|φ)}` with
`normalization(l,m) = sqrt((2l+1)(l-|m|)! / (4π (l+|m|)!))`. -/
noncomputable def specBasisCoefficient (l : ℕ) (m : ℤ) (azimuth elevation : ℝ) : ℝ :=
  Real.sqrt ((2 * (l : ℝ) + 1) * (Nat.factorial (l - m.natAbs) : ℝ) /
      (4 * Real.pi * (Nat.factorial (l + m.natAbs) : ℝ))) *
    legendreP (Real.sin elevation) m.natAbs l *
    (if m = 0 then 1
     else if 0 < m then Real.sqrt 2 * Real.cos ((m : ℝ) * azimuth)
     else Real.sqrt 2 * Real.sin ((m.natAbs : ℝ) * azimuth))

/-- Spec §4.3 / §8: the full basis vector, `(l, m)` in the same channel order
as the decoder. -/
noncomputable def specBasisList (order : ℕ) (azimuth elevation : ℝ) : List ℝ :=
  (List.range (order + 1)).flatMap fun l =>
    (List.range (2 * l + 1)).map fun (k : ℕ) =>
      specBasisCoefficient l ((k : ℤ) - l) azimuth elevation

/-! ## Rotation matrices (`SHACDecoder.computeRotationMatrix`)

Matrices are flat row-major `List ℝ` of length `size²`; an out-of-range
`List.set` is a no-op, exactly like an out-of-range `Float32Array` store. -/

/-- `SHACDecoder.applyFirstOrderRotation`: nine stores with the hard-coded
row stride 4. -/
noncomputable def applyFirstOrderRotation (matrix : List ℝ) (yaw pitch roll : ℝ) : List ℝ :=
  let cy := Real.cos yaw
  let sy := Real.sin yaw
  let cp := Real.cos pitch
  let sp := Real.sin pitch
  let _cr := Real.cos roll
  let _sr := Real.sin roll
  ((((((((matrix.set (1 * 4 + 1) (cy * cp)).set (1 * 4 + 2) (sy * sp)).set
    (1 * 4 + 3) (-sy * cp)).set (2 * 4 + 1) (-sy)).set (2 * 4 + 2) cp).set
    (2 * 4 + 3) cy).set (3 * 4 + 1) (sy * cp)).set (3 * 4 + 2) (-cy * sp)).set
    (3 * 4 + 3) (cy * cp)

/-- `SHACDecoder.applySecondOrderRotation`: diagonal stores with the
hard-coded row stride 16, starting at base index 4. -/
noncomputable def applySecondOrderRotation (matrix : List ℝ) (yaw pitch roll : ℝ) : List ℝ :=
  let cy := Real.cos yaw
  let cp := Real.cos pitch
  let c2y := Real.cos (2 * yaw)
  let base := 4
  ((((matrix.set ((base + 0) * 16 + (base + 0)) (c2y * cp * cp)).set
    ((base + 1) * 16 + (base + 1)) (cy * cp)).set
    ((base + 2) * 16 + (base + 2)) ((3 * cp * cp - 1) / 2)).set
    ((base + 3) * 16 + (base + 3)) (cy * cp)).set
    ((base + 4) * 16 + (base + 4)) (c2y * cp * cp)

/-- `SHACDecoder.applyThirdOrderRotation`: diagonal stores
`matrix[idx*16 + idx] = cos(m·yaw) · cp^|m|` for `m = -3..3`, base index 9. -/
noncomputable def applyThirdOrderRotation (matrix : List ℝ) (yaw pitch roll : ℝ) : List ℝ :=
  let cp := Real.cos pitch
  let base : ℕ := 9
  (List.range 7).foldl
    (fun mat (k : ℕ) =>
      let m : ℤ := (k : ℤ) - 3
      let idx : ℕ := base + k
      mat.set (idx * 16 + idx) (Real.cos ((m : ℝ) * yaw) * cp ^ m.natAbs))
    matrix

/-- `SHACDecoder.computeRotationMatrix`: identity initialization, then the
per-degree blocks for orders ≥ 1, 2, 3. -/
noncomputable def computeRotationMatrix (order : ℕ) (yaw pitch roll : ℝ) : List ℝ :=
  let size := (order + 1) * (order + 1)
  let matrix := (List.range size).foldl (fun mat i => mat.set (i * size + i) 1.0)
    (List.replicate (size * size) 0)
  let matrix := if 1 ≤ order then applyFirstOrderRotation matrix yaw pitch roll else matrix
  let matrix := if 2 ≤ order then applySecondOrderRotation matrix yaw pitch roll else matrix
  if 3 ≤ order then applyThirdOrderRotation matrix yaw pitch roll else matrix

/-- The identity matrix of dimension `n`, flat row-major. -/
noncomputable def identityMatrix (n : ℕ) : List ℝ :=
  (List.range (n * n)).map fun k => if k / n = k % n then 1 else 0

/-! ## Renderer (`SpatialAudioEngine`) -/

/-- `SpatialAudioEngine.factorial`: `1` for `n ≤ 1`, else the running
product `2 · 3 ⋯ n`.  The JS argument may be negative, hence `ℤ`. -/
noncomputable def engineFactorial (n : ℤ) : ℝ :=
  if n ≤ 1 then 1
  else (List.range (n.toNat - 1)).foldl (fun acc (k : ℕ) => acc * ((k : ℝ) + 2)) 1

/-- `SpatialAudioEngine.associatedLegendre` (the renderer's own recursive
variant with an iterative climb). -/
noncomputable def engineAssociatedLegendre (l m : ℕ) (x : ℝ) : ℝ :=
  if _h1 : l = m then
    (-1 : ℝ) ^ l *
      ((List.range l).foldl (fun acc (i : ℕ) => acc * (2 * ((i : ℝ) + 1) - 1)) 1) *
      (1 - x * x) ^ ((l : ℝ) / 2)
  else if _h2 : l = m + 1 then x * (2 * (m : ℝ) + 1) * engineAssociatedLegendre m m x
  else
    let Pmm := engineAssociatedLegendre m m x
    let Pm1m := engineAssociatedLegendre (m + 1) m x
    ((List.range (l - (m + 1))).foldl
      (fun (acc : ℝ × ℝ) (j : ℕ) =>
        let ll := m + 2 + j
        (acc.2,
          ((2 * (ll : ℝ) - 1) * x * acc.2 - ((ll : ℝ) + (m : ℝ) - 1) * acc.1) /
            ((ll : ℝ) - (m : ℝ))))
      (Pmm, Pm1m)).2
termination_by (if l = m then 0 else if l = m + 1 then 1 else 2)
decreasing_by all_goals simp_all

/-- `SpatialAudioEngine.computeHighOrderHarmonic` (orders above 3). -/
noncomputable def computeHighOrderHarmonic (l : ℕ) (m : ℤ) (azimuth elevation : ℝ) : ℝ :=
  let cosTheta := Real.cos elevation
  let absM := m.natAbs
  let Plm := engineAssociatedLegendre l absM cosTheta
  let norm := Real.sqrt ((2 * (l : ℝ) + 1) * engineFactorial ((l : ℤ) - absM) /
    (4 * Real.pi * engineFactorial ((l : ℤ) + absM)))
  if m = 0 then norm * Plm
  else if 0 < m then norm * Plm * Real.cos ((m : ℝ) * azimuth)
  else norm * Plm * Real.sin ((absM : ℝ) * azimuth)

/-- `SpatialAudioEngine.realSphericalHarmonic`: closed forms for degrees 0-3,
recurrence fallback above, `0.0` on unmatched `(l, m)`. -/
noncomputable def realSphericalHarmonic (l : ℕ) (m : ℤ) (azimuth elevation : ℝ) : ℝ :=
  let cosElevation := Real.cos elevation
  let sinElevation := Real.sin elevation
  let cosAzimuth := Real.cos azimuth
  let sinAzimuth := Real.sin azimuth
  let cosEl2 := cosElevation * cosElevation
  let sinEl2 := sinElevation * sinElevation
  let sinEl3 := sinEl2 * sinElevation
  if l = 0 then 1.0
  else if l = 1 then
    if m = -1 then Real.sqrt (3 / (4 * Real.pi)) * sinElevation * sinAzimuth
    else if m = 0 then Real.sqrt (3 / (4 * Real.pi)) * cosElevation
    else if m = 1 then Real.sqrt (3 / (4 * Real.pi)) * sinElevation * cosAzimuth
    else 0.0
  else if l = 2 then
    if m = -2 then Real.sqrt (15 / (16 * Real.pi)) * sinEl2 * Real.sin (2 * azimuth)
    else if m = -1 then Real.sqrt (15 / (4 * Real.pi)) * sinElevation * cosElevation * sinAzimuth
    else if m = 0 then Real.sqrt (5 / (16 * Real.pi)) * (3 * cosEl2 - 1)
    else if m = 1 then Real.sqrt (15 / (4 * Real.pi)) * sinElevation * cosElevation * cosAzimuth
    else if m = 2 then Real.sqrt (15 / (16 * Real.pi)) * sinEl2 * Real.cos (2 * azimuth)
    else 0.0
  else if l = 3 then
    if m = -3 then Real.sqrt (35 / (32 * Real.pi)) * sinEl3 * Real.sin (3 * azimuth)
    else if m = -2 then
      Real.sqrt (105 / (16 * Real.pi)) * sinEl2 * cosElevation * Real.sin (2 * azimuth)
    else if m = -1 then
      Real.sqrt (21 / (32 * Real.pi)) * sinElevation * (5 * cosEl2 - 1) * sinAzimuth
    else if m = 0 then Real.sqrt (7 / (16 * Real.pi)) * cosElevation * (5 * cosEl2 - 3)
    else if m = 1 then
      Real.sqrt (21 / (32 * Real.pi)) * sinElevation * (5 * cosEl2 - 1) * cosAzimuth
    else if m = 2 then
      Real.sqrt (105 / (16 * Real.pi)) * sinEl2 * cosElevation * Real.cos (2 * azimuth)
    else if m = 3 then Real.sqrt (35 / (32 * Real.pi)) * sinEl3 * Real.cos (3 * azimuth)
    else 0.0
  else computeHighOrderHarmonic l m azimuth elevation

/-- `SpatialAudioEngine.computeSphericalHarmonics`: the JS loop runs
`l = 0, 1, …` while `l ≤ √numChannels - 1`, i.e. for
`l < ⌊√numChannels⌋ = Nat.sqrt numChannels` trips, filling `(l, m)` pairs in
channel order; for a non-square `numChannels` the remaining slots of the JS
array stay `undefined`, which is modelled by the list simply ending (reads
past it give `none`). -/
noncomputable def computeSphericalHarmonics (azimuth elevation : ℝ) (numChannels : ℕ) :
    List ℝ :=
  (List.range (Nat.sqrt numChannels)).flatMap fun l =>
    (List.range (2 * l + 1)).map fun (k : ℕ) =>
      realSphericalHarmonic l ((k : ℤ) - l) azimuth elevation

/-- One virtual speaker: azimuth, elevation, gain. -/
structure Speaker where
  azimuth : ℝ
  elevation : ℝ
  gain : ℝ

/-- `SpatialAudioEngine.getCubeSpeakers`: 8 speakers, gain 1/8 each. -/
noncomputable def getCubeSpeakers : List Speaker :=
  [⟨0, 0, 0.125⟩, ⟨Real.pi / 2, 0, 0.125⟩, ⟨Real.pi, 0, 0.125⟩, ⟨-(Real.pi / 2), 0, 0.125⟩,
    ⟨0, Real.pi / 4, 0.125⟩, ⟨Real.pi / 2, Real.pi / 4, 0.125⟩, ⟨Real.pi, Real.pi / 4, 0.125⟩,
    ⟨-(Real.pi / 2), Real.pi / 4, 0.125⟩]

/-- `SpatialAudioEngine.getDodecahedralSpeakers`: 12 speakers, gain 1/12. -/
noncomputable def getDodecahedralSpeakers : List Speaker :=
  (List.range 12).map fun i =>
    ⟨(i : ℝ) * 2 * Real.pi / 12, if i % 2 = 0 then Real.pi / 6 else -(Real.pi / 6), 1.0 / 12⟩

/-- JS `Math.atan2`. -/
noncomputable def atan2 (y x : ℝ) : ℝ :=
  if 0 < x then Real.arctan (y / x)
  else if x < 0 then
    (if 0 ≤ y then Real.arctan (y / x) + Real.pi else Real.arctan (y / x) - Real.pi)
  else if 0 < y then Real.pi / 2
  else if y < 0 then -(Real.pi / 2)
  else 0

/-- `SpatialAudioEngine.getIcosahedralSpeakers`: 20 directions from the
icosahedron vertices plus 8 extra, gain 1/20. -/
noncomputable def getIcosahedralSpeakers : List Speaker :=
  let phi := (1 + Real.sqrt 5) / 2
  let vertices : List (ℝ × ℝ × ℝ) :=
    [(0, 1, phi), (0, -1, phi), (0, 1, -phi), (0, -1, -phi),
      (1, phi, 0), (-1, phi, 0), (1, -phi, 0), (-1, -phi, 0),
      (phi, 0, 1), (phi, 0, -1), (-phi, 0, 1), (-phi, 0, -1),
      (phi / 2, phi / 2, phi / 2), (-(phi / 2), phi / 2, phi / 2),
      (phi / 2, -(phi / 2), phi / 2), (-(phi / 2), -(phi / 2), phi / 2),
      (phi / 2, phi / 2, -(phi / 2)), (-(phi / 2), phi / 2, -(phi / 2)),
      (phi / 2, -(phi / 2), -(phi / 2)), (-(phi / 2), -(phi / 2), -(phi / 2))]
  vertices.map fun v =>
    let norm := Real.sqrt (v.1 * v.1 + v.2.1 * v.2.1 + v.2.2 * v.2.2)
    ⟨atan2 v.1 v.2.2, Real.arcsin (v.2.1 / norm), 1.0 / 20⟩

/-- `SpatialAudioEngine.getVirtualSpeakerConfig`.  The JS branches on
`order = √numChannels - 1`: `order ≥ 3 ⟺ numChannels ≥ 16` and
`order ≥ 2 ⟺ numChannels ≥ 9`. -/
noncomputable def getVirtualSpeakerConfig (numChannels : ℕ) : List Speaker :=
  if 16 ≤ numChannels then getIcosahedralSpeakers
  else if 9 ≤ numChannels then getDodecahedralSpeakers
  else getCubeSpeakers

/-- JS `NaN`-propagating addition: `none` models `NaN`/`undefined`. -/
def optAdd (a b : Option ℝ) : Option ℝ := a.bind fun x => b.map fun y => x + y

/-- `SpatialAudioEngine.decodeToVirtualSpeakers`: per speaker, the decoded
signal `output[s] = gain · Σ_ch audioData[ch][s] · shCoeffs[ch]`.  A read of
an `undefined` coefficient (non-square channel count) poisons the sum,
modelling JS `NaN`. -/
noncomputable def decodeToVirtualSpeakers (audioData : List (List ℝ))
    (speakers : List Speaker) (numSamples : ℕ) : List (List (Option ℝ)) :=
  speakers.map fun speaker =>
    let shCoeffs := computeSphericalHarmonics speaker.azimuth speaker.elevation audioData.length
    (List.range numSamples).map fun sample =>
      let sum := (List.range audioData.length).foldl
        (fun acc ch =>
          optAdd acc ((shCoeffs.get? ch).map fun c => (audioData.getD ch []).getD sample 0 * c))
        (some 0)
      sum.map fun v => v * speaker.gain

/-- The computed HRTF record (`left`/`right` gains plus the auxiliary `itd`
and `elevation` fields, which are returned but not applied). -/
structure HRTFOut where
  left : ℝ
  right : ℝ
  itd : ℝ
  elevation : ℝ

/-- `SpatialAudioEngine.getPinnaResponse`. -/
noncomputable def getPinnaResponse (elevation : ℝ) : ℝ :=
  let elevationNorm := elevation / (Real.pi / 2)
  if 0 < elevation then 1.0 + 0.2 * elevationNorm
  else 1.0 + 0.1 * |elevationNorm|

/-- `SpatialAudioEngine.getHRTF`: the analytic binaural gain model. -/
noncomputable def getHRTF (azimuth elevation : ℝ) : HRTFOut :=
  let headRadius : ℝ := 0.0875
  let soundSpeed : ℝ := 343
  let itd := headRadius / soundSpeed * (azimuth + Real.sin azimuth)
  let _baseLevelDiff := Real.sin azimuth * 12
  let pinnaGain := getPinnaResponse elevation
  let distance : ℝ := 1.0
  let airAbsorption := Real.exp (-0.0001 * distance)
  let headShadowLeft := if 0 < azimuth then 1.0 - 0.3 * Real.sin azimuth else 1.0
  let headShadowRight := if azimuth < 0 then 1.0 + 0.3 * Real.sin azimuth else 1.0
  let torsoReflection := 1.0 + 0.1 * Real.cos elevation
  let leftGain := (0.5 + 0.5 * Real.cos (azimuth + Real.pi / 2)) * pinnaGain * headShadowLeft *
    torsoReflection * airAbsorption
  let rightGain := (0.5 + 0.5 * Real.cos (azimuth - Real.pi / 2)) * pinnaGain * headShadowRight *
    torsoReflection * airAbsorption
  ⟨max 0.01 leftGain, max 0.01 rightGain, itd, elevation⟩

/-- `SpatialAudioEngine.applySpatialHRTF`: accumulate each speaker's signal
into the two output buffers with the speaker's HRTF gain pair. -/
noncomputable def applySpatialHRTF (speakerOutputs : List (List (Option ℝ)))
    (speakers : List Speaker) (numSamples : ℕ) : List (Option ℝ) × List (Option ℝ) :=
  -- the JS indexes speakers and speakerOutputs in lockstep; `zip` is that loop
  let pairs := speakers.zip speakerOutputs
  ((List.range numSamples).map fun i =>
      pairs.foldl
        (fun acc p =>
          optAdd acc ((p.2.getD i none).map fun v => v * (getHRTF p.1.azimuth p.1.elevation).left))
        (some 0),
    (List.range numSamples).map fun i =>
      pairs.foldl
        (fun acc p =>
          optAdd acc ((p.2.getD i none).map fun v => v * (getHRTF p.1.azimuth p.1.elevation).right))
        (some 0))

/-- `SpatialAudioEngine.decodeBinauralHRTF`. -/
noncomputable def decodeBinauralHRTF (audioData : List (List ℝ)) (numSamples : ℕ) :
    List (Option ℝ) × List (Option ℝ) :=
  let speakers := getVirtualSpeakerConfig audioData.length
  let speakerOutputs := decodeToVirtualSpeakers audioData speakers numSamples
  applySpatialHRTF speakerOutputs speakers numSamples

/-- Error outcomes of `SpatialAudioEngine.createAudioBuffer`.  The two
constructors correspond to the two `throw`s in the source; there is no
channel-count error in the code at all. -/
inductive RenderErr where
  | invalidFormat
  | noSamples
  deriving DecidableEq, Repr

/-- `SpatialAudioEngine.createAudioBuffer`: validation, then the
channel-count dispatch (≥4 → binaural HRTF pipeline; 2-3 → direct copy of
channels 0/1; 1 → mono duplication). -/
noncomputable def createAudioBuffer (audioData : List (List ℝ)) :
    Except RenderErr (List (Option ℝ) × List (Option ℝ)) :=
  if audioData.length = 0 then .error .invalidFormat
  else
    let numSamples := (audioData.getD 0 []).length
    if numSamples = 0 then .error .noSamples
    else if 4 ≤ audioData.length then .ok (decodeBinauralHRTF audioData numSamples)
    else if 2 ≤ audioData.length then
      .ok ((audioData.getD 0 []).map some, (audioData.getD 1 []).map some)
    else .ok ((audioData.getD 0 []).map some, (audioData.getD 0 []).map some)

/-! ## Sample-buffer pool (`AudioBufferPool`) -/

/-- One pooled buffer: its contents and the in-use mark (the JS `WeakSet`
membership); buffer identity is list position, since the JS pool array only
ever grows. -/
structure PoolBuf where
  data : List ℝ
  inUse : Bool

/-- The scan of `AudioBufferPool.acquire`: index of the first pool entry with
`candidate.length === size && !inUse.has(candidate)`. -/
def findFreeIdx : List PoolBuf → ℕ → Option ℕ
  | [], _ => none
  | b :: rest, size =>
    if b.data.length = size ∧ b.inUse = false then some 0
    else (findFreeIdx rest size).map fun i => i + 1

/-- Mark the buffer at position `i` in use (`this.inUse.add(buffer)`). -/
def markUsed : List PoolBuf → ℕ → List PoolBuf
  | [], _ => []
  | b :: rest, 0 => { b with inUse := true } :: rest
  | b :: rest, n + 1 => b :: markUsed rest n

/-- `AudioBufferPool.acquire`: reuse the first free matching buffer, else
allocate a zero-filled buffer of the exact size and append it; the returned
index identifies the handed-out buffer. -/
noncomputable def acquire (s : List PoolBuf) (size : ℕ) : List PoolBuf × ℕ :=
  match findFreeIdx s size with
  | some i => (markUsed s i, i)
  | none => (s ++ [⟨List.replicate size 0, true⟩], s.length)

/-- `AudioBufferPool.release`: if the buffer at `i` is in use, clear the mark
and zero-fill its contents (`buffer.fill(0)`); otherwise do nothing. -/
noncomputable def releaseAt : List PoolBuf → ℕ → List PoolBuf
  | [], _ => []
  | b :: rest, 0 =>
    (if b.inUse then { data := List.replicate b.data.length 0, inUse := false } else b) :: rest
  | b :: rest, n + 1 => b :: releaseAt rest n

/-- A client writing into a buffer it holds (what the renderer does between
`acquire` and `release`); writes only touch an in-use buffer and keep its
length. -/
def writeBuf : List PoolBuf → ℕ → List ℝ → List PoolBuf
  | [], _, _ => []
  | b :: rest, 0, d =>
    (if b.inUse ∧ d.length = b.data.length then { data := d, inUse := true } else b) :: rest
  | b :: rest, n + 1, d => b :: writeBuf rest n d

/-- A pool-interaction step: acquire, release, or a client write. -/
inductive PoolOp where
  | acq (size : ℕ)
  | rel (i : ℕ)
  | write (i : ℕ) (d : List ℝ)

/-- Run one pool operation. -/
noncomputable def stepPool (s : List PoolBuf) : PoolOp → List PoolBuf
  | .acq size => (acquire s size).1
  | .rel i => releaseAt s i
  | .write i d => writeBuf s i d

/-- Run a sequence of pool operations from the empty pool. -/
noncomputable def runPool (ops : List PoolOp) : List PoolBuf :=
  ops.foldl stepPool []

/-! ## Concrete instances used by the theorems -/

/-- A 32-byte buffer: a valid header (magic `SHAC`, version 1, order 0,
1 channel, bit depth 16, 1 sample, 1 layer) followed by a layer record with
empty id and empty metadata — and *no* audio payload bytes, although the
header promises `1 × 1 × 2 = 2` of them. -/
def truncatedBuf : List ℕ :=
  [0x53, 0x48, 0x41, 0x43, 1, 0, 0, 0, 1, 0, 0, 0, 0, 0, 16, 0, 0, 0,
    1, 0, 0, 0, 1, 0, 0, 0, 0, 0, 0, 0, 0, 0]

/-- The header parsed from `truncatedBuf`. -/
def truncatedBufHeader : Header := ⟨1, 0, 1, 0, 16, 1, 1, 0⟩

/-- The single index entry built from `truncatedBuf`: its audio payload
`[32, 34)` sticks out past the 32-byte buffer. -/
def truncatedBufEntry : LayerEntry := ⟨[], 26, 32, 2, 0⟩

/-- The pool invariant: every buffer not in use is zero-filled. -/
def PoolInv (s : List PoolBuf) : Prop :=
  ∀ b ∈ s, b.inUse = false → b.data = List.replicate b.data.length 0

/-! # Theorems -/

/-! ## C2 — index building and truncation -/

lemma bind_ne_error {α β : Type} (e : FormatErr) (ma : Except FormatErr α)
    (f : α → Except FormatErr β) (h1 : ma ≠ .error e) (h2 : ∀ a, f a ≠ .error e) :
    ma >>= f ≠ .error e := by
  cases ma with
  | error err =>
    intro hc
    exact h1 (by simpa [Bind.bind, Except.bind] using hc)
  | ok a => simpa [Bind.bind, Except.bind] using h2 a

lemma getU8_ne_truncated (b : List ℕ) (i : ℕ) : getU8 b i ≠ .error .truncated := by
  unfold getU8; split <;> simp

lemma getU16_ne_truncated (b : List ℕ) (i : ℕ) : getU16 b i ≠ .error .truncated := by
  unfold getU16
  exact bind_ne_error _ _ _ (getU8_ne_truncated b i) fun x =>
    bind_ne_error _ _ _ (getU8_ne_truncated b (i + 1)) fun y => by
      simp [pure, Except.pure]

lemma getU32_ne_truncated (b : List ℕ) (i : ℕ) : getU32 b i ≠ .error .truncated := by
  unfold getU32
  exact bind_ne_error _ _ _ (getU16_ne_truncated b i) fun x =>
    bind_ne_error _ _ _ (getU16_ne_truncated b (i + 2)) fun y => by
      simp [pure, Except.pure]

lemma sliceBytes_ne_truncated (b : List ℕ) (i len : ℕ) :
    sliceBytes b i len ≠ .error .truncated := by
  unfold sliceBytes; split <;> simp

lemma readHeader_ne_truncated (b : List ℕ) : readHeader b ≠ .error .truncated := by
  unfold readHeader
  refine bind_ne_error _ _ _ (sliceBytes_ne_truncated b 0 4) fun magic => ?_
  split
  · simp [throw, throwThe, MonadExceptOf.throw]
  refine bind_ne_error _ _ _ (getU16_ne_truncated b 4) fun version => ?_
  refine bind_ne_error _ _ _ (getU16_ne_truncated b 6) fun order => ?_
  refine bind_ne_error _ _ _ (getU16_ne_truncated b 8) fun nch => ?_
  refine bind_ne_error _ _ _ (getU32_ne_truncated b 10) fun sr => ?_
  refine bind_ne_error _ _ _ (getU32_ne_truncated b 14) fun bd => ?_
  refine bind_ne_error _ _ _ (getU32_ne_truncated b 18) fun ns => ?_
  refine bind_ne_error _ _ _ (getU16_ne_truncated b 22) fun nl => ?_
  refine bind_ne_error _ _ _ (getU16_ne_truncated b 24) fun nn => ?_
  split
  · simp [throw, throwThe, MonadExceptOf.throw]
  · simp [pure, Except.pure]

lemma buildLayerIndexAux_ne_truncated (b : List ℕ) (hdr : Header) :
    ∀ (n offset : ℕ), buildLayerIndexAux b hdr n offset ≠ .error .truncated := by
  intro n
  induction n with
  | zero => intro offset; simp [buildLayerIndexAux]
  | succ k ih =>
    intro offset
    unfold buildLayerIndexAux
    refine bind_ne_error _ _ _ (getU16_ne_truncated b offset) fun idLength => ?_
    refine bind_ne_error _ _ _ (getU32_ne_truncated b (offset + 2)) fun metadataLength => ?_
    refine bind_ne_error _ _ _ (sliceBytes_ne_truncated b (offset + 6) idLength) fun idBytes => ?_
    refine bind_ne_error _ _ _ (ih _) fun rest => ?_
    simp [pure, Except.pure]

/-- C2 counterexample: `truncatedBuf` declares a 2-byte audio payload that
sticks out past the end of the buffer, yet the index-building pass of decode
succeeds (it performs no bounds check), rather than failing with a Truncated
format error. -/
theorem c2_truncated_buffer_counterexample :
    decodeIndex truncatedBuf = .ok (truncatedBufHeader, [truncatedBufEntry]) ∧
    truncatedBufEntry.dataOffset + truncatedBufEntry.dataSize > truncatedBuf.length := by
  constructor
  · rfl
  · decide

/-- C2 amended: the index-building pass never reports a Truncated format
error at all — out-of-range reads of the layer-record header fields surface
as a generic range error, and computed payload offsets/sizes are never
checked against the buffer length (see the counterexample, where the pass
succeeds with an out-of-bounds payload range). -/
theorem c2_index_never_truncated (b : List ℕ) :
    decodeIndex b ≠ .error .truncated := by
  unfold decodeIndex
  refine bind_ne_error _ _ _ (readHeader_ne_truncated b) fun hdr => ?_
  refine bind_ne_error _ _ _ (buildLayerIndexAux_ne_truncated b hdr _ _) fun idx => ?_
  simp [pure, Except.pure]

/-- C2 witness: the amended theorem applied to the concrete buffer. -/
theorem c2_index_never_truncated_witness :
    (decodeIndex truncatedBuf = .error .truncated) = False :=
  eq_false (c2_index_never_truncated truncatedBuf)

/-! ## C3 — rotation matrix at zero angles -/

lemma computeRotationMatrix_one_zero :
    computeRotationMatrix 1 0 0 0 =
      [1, 0, 0, 0, 0, 1, 0, 0, 0, 0, 1, 1, 0, 0, 0, 1] := by
  norm_num [computeRotationMatrix, applyFirstOrderRotation, List.range_succ,
    Real.sin_zero, Real.cos_zero, List.replicate, List.set]

/-- C3: evaluating `computeRotationMatrix` at order 1 with
`yaw = pitch = roll = 0` (a rotation by nothing): the flat entry 11 — row 2
(the Z channel), column 3 (the X channel) — is `cos yaw = 1`, so the result
is *not* the identity matrix, which has 0 there.  This contradicts both the
spec's §8 property and the mathematical meaning of a zero rotation. -/
theorem c3_zero_rotation_not_identity_eval :
    (computeRotationMatrix 1 0 0 0).getD 11 0 = 1 ∧ (identityMatrix 4).getD 11 0 = 0 ∧
    computeRotationMatrix 1 0 0 0 ≠ identityMatrix 4 := by
  have hid : identityMatrix 4 = [1, 0, 0, 0, 0, 1, 0, 0, 0, 0, 1, 0, 0, 0, 0, 1] := by
    norm_num [identityMatrix, List.range_succ]
  refine ⟨by rw [computeRotationMatrix_one_zero]; rfl, by rw [hid]; rfl, fun h => ?_⟩
  rw [computeRotationMatrix_one_zero, hid] at h
  have h11 := congrArg (fun l => l.getD 11 0) h
  norm_num at h11

/-! ## C5 — 16-bit sample decoding, unaligned vs aligned -/

lemma jsToUint32_ofNat (n : ℕ) (h : n < 4294967296) : jsToUint32 (n : ℤ) = n := by
  unfold jsToUint32
  rw [Int.emod_eq_of_lt (by positivity) (by exact_mod_cast h)]
  simp

lemma lor256 (c b : ℕ) (hb : b < 256) : (256 * c) ||| b = 256 * c + b := by
  have h := (Nat.mul_add_lt_is_or (i := 8) (b := b) (by norm_num; omega) c).symm
  norm_num at h
  exact h

/-- The JS `(high << 8) | low` bit dance equals the signed little-endian
16-bit integer with bytes `low`, `high`. -/
lemma sample16_value_eq (low high : ℕ) (hl : low < 256) (hh : high < 256) :
    jsOr (jsShl (getInt8JS high) 8) low = int16LE low high := by
  have h1 : jsToUint32 (jsShl (getInt8JS high) 8) =
      256 * (high + (if high < 128 then 0 else 16776960)) := by
    simp only [jsShl, jsToInt32, jsToUint32, getInt8JS]
    push_cast
    split_ifs <;> omega
  have h2 : jsToUint32 (low : ℤ) = low := jsToUint32_ofNat low (by omega)
  rw [jsOr, h1, h2, lor256 _ low hl]
  simp only [jsToInt32, jsToUint32, int16LE]
  push_cast
  split_ifs <;> omega

lemma sample16_eq (low high : ℕ) (hl : low < 256) (hh : high < 256) :
    unalignedSample16 low high = alignedSample16 low high := by
  unfold unalignedSample16 alignedSample16
  rw [sample16_value_eq low high hl hh]

lemma getD_byte_lt (buf : List ℕ) (hb : ∀ x ∈ buf, x < 256) (i : ℕ) : buf.getD i 0 < 256 := by
  rcases lt_or_ge i buf.length with h | h
  · rw [List.getD_eq_get _ _ h]
    exact hb _ (buf.get_mem _ _)
  · rw [List.getD_eq_default _ _ h]
    omega

/-- C5: for byte buffers (entries < 256), the byte-wise unaligned decode
path, the typed-array aligned decode path, and the dispatching
`readAudioDataOptimized` itself all produce exactly the per-channel buffers
prescribed by the spec: sample `s` of channel `ch` is the signed
little-endian 16-bit integer at channel-major position `ch·numSamples + s`
divided by 32767 — and this holds for every payload offset. -/
theorem c5_sample_decode_paths_agree (buf : List ℕ) (offset numChannels numSamples : ℕ)
    (hbytes : ∀ x ∈ buf, x < 256) :
    readUnaligned16 buf offset numChannels numSamples =
        specDecode16 buf offset numChannels numSamples ∧
    readAligned16 buf offset numChannels numSamples =
        specDecode16 buf offset numChannels numSamples ∧
    readAudioData16 buf offset numChannels numSamples =
        specDecode16 buf offset numChannels numSamples := by
  have hb : ∀ i, buf.getD i 0 < 256 := getD_byte_lt buf hbytes
  have hua : readUnaligned16 buf offset numChannels numSamples =
      specDecode16 buf offset numChannels numSamples := by
    unfold readUnaligned16 specDecode16
    refine List.map_congr_left fun ch _ => ?_
    refine List.map_congr_left fun s _ => ?_
    have hidx : (ch * numSamples + s) * 2 = 2 * (ch * numSamples + s) := by ring
    simp only [hidx]
    exact sample16_eq _ _ (hb _) (hb _)
  have hal : readAligned16 buf offset numChannels numSamples =
      specDecode16 buf offset numChannels numSamples := rfl
  refine ⟨hua, hal, ?_⟩
  unfold readAudioData16
  split
  · exact hua
  · exact hal

/-- C5 witness: a concrete 4-byte buffer decoded at the odd offset 1. -/
theorem c5_sample_decode_witness :
    (∀ x ∈ [0, 52, 254, 0], x < 256) ∧
    readAudioData16 [0, 52, 254, 0] 1 1 1 = specDecode16 [0, 52, 254, 0] 1 1 1 :=
  ⟨by decide, (c5_sample_decode_paths_agree [0, 52, 254, 0] 1 1 1 (by decide)).2.2⟩

/-! ## C7 — metadata parse fallback -/

/-- C7: whenever the strict parse of a layer's metadata text fails (first
`jsonParse` returns `none`) and the second attempt on the text normalized by
the single-quote/parenthesis/True/False/None rewriting also fails, the layer
decodes successfully anyway, with metadata exactly the default
`{position: [0,0,0], gain: 1.0}` — the failure never aborts the layer read. -/
theorem c7_metadata_fallback (jsonParse : String → Option LayerMetadata)
    (utf8 : List ℕ → String) (f32 : ℕ → ℕ → ℕ → ℕ → ℝ)
    (buf : List ℕ) (hdr : Header) (info : LayerEntry)
    (idLength : ℕ) (idBytes metadataBytes : List ℕ)
    (hid : getU16 buf info.headerOffset = .ok idLength)
    (hslice1 : sliceBytes buf (info.headerOffset + 6) idLength = .ok idBytes)
    (hslice2 : sliceBytes buf (info.headerOffset + 6 + idLength) info.metadataLength =
      .ok metadataBytes)
    (hparse1 : jsonParse (utf8 metadataBytes) = none)
    (hparse2 : jsonParse (normalizeMetadataStr (utf8 metadataBytes)) = none) :
    readLayerOptimized jsonParse utf8 f32 buf hdr info =
      .ok ⟨idBytes, defaultMetadata,
        readAudioDataOptimized f32 buf info.dataOffset hdr.n_channels hdr.n_samples hdr.bit_depth,
        hdr.n_samples⟩ := by
  simp only [readLayerOptimized, Bind.bind, Except.bind, hid, hslice1, hslice2,
    parseLayerMetadata, hparse1, hparse2, pure, Except.pure]

/-- C7 witness: the concrete 32-byte buffer with an always-failing parser. -/
theorem c7_metadata_fallback_witness :
    ((fun _ : String => (none : Option LayerMetadata)) ((fun _ : List ℕ => "") [])
        = none) ∧
    readLayerOptimized (fun _ => none) (fun _ => "") (fun _ _ _ _ => 0)
        truncatedBuf truncatedBufHeader truncatedBufEntry =
      .ok ⟨[], defaultMetadata,
        readAudioDataOptimized (fun _ _ _ _ => 0) truncatedBuf 32 1 1 16, 1⟩ :=
  ⟨rfl,
    c7_metadata_fallback (fun _ => none) (fun _ => "") (fun _ _ _ _ => 0)
      truncatedBuf truncatedBufHeader truncatedBufEntry 0 [] []
      rfl rfl rfl rfl rfl⟩

/-! ## C8 — HRTF gain bounds -/

lemma pinna_ge_one (el : ℝ) : 1 ≤ getPinnaResponse el := by
  unfold getPinnaResponse
  have hpi : (0 : ℝ) < Real.pi / 2 := by positivity
  split_ifs with h
  · nlinarith [div_nonneg h.le hpi.le]
  · nlinarith [abs_nonneg (el / (Real.pi / 2))]

lemma pinna_le (el : ℝ) (h : |el| ≤ Real.pi / 2) : getPinnaResponse el ≤ 1.2 := by
  unfold getPinnaResponse
  have hpi : (0 : ℝ) < Real.pi / 2 := by positivity
  have habs : |el / (Real.pi / 2)| ≤ 1 := by
    rw [abs_div, abs_of_pos hpi]
    exact div_le_one_of_le h hpi.le
  split_ifs with hel
  · have : el / (Real.pi / 2) ≤ 1 := le_of_abs_le habs
    nlinarith
  · have : |el / (Real.pi / 2)| ≤ 1 := habs
    nlinarith

lemma base_bounds (x : ℝ) : 0 ≤ 0.5 + 0.5 * Real.cos x ∧ 0.5 + 0.5 * Real.cos x ≤ 1 := by
  have h1 := Real.neg_one_le_cos x
  have h2 := Real.cos_le_one x
  constructor <;> nlinarith

lemma shadow_bounds_left (az : ℝ) :
    0.7 ≤ (if 0 < az then 1.0 - 0.3 * Real.sin az else 1.0) ∧
    (if 0 < az then 1.0 - 0.3 * Real.sin az else 1.0) ≤ 1.3 := by
  have h1 := Real.neg_one_le_sin az
  have h2 := Real.sin_le_one az
  split_ifs <;> constructor <;> nlinarith

lemma shadow_bounds_right (az : ℝ) :
    0.7 ≤ (if az < 0 then 1.0 + 0.3 * Real.sin az else 1.0) ∧
    (if az < 0 then 1.0 + 0.3 * Real.sin az else 1.0) ≤ 1.3 := by
  have h1 := Real.neg_one_le_sin az
  have h2 := Real.sin_le_one az
  split_ifs <;> constructor <;> nlinarith

lemma torso_bounds (el : ℝ) :
    0.9 ≤ 1.0 + 0.1 * Real.cos el ∧ 1.0 + 0.1 * Real.cos el ≤ 1.1 := by
  have h1 := Real.neg_one_le_cos el
  have h2 := Real.cos_le_one el
  constructor <;> nlinarith

lemma air_bounds : 0.9999 ≤ Real.exp (-0.0001 * (1.0 : ℝ)) ∧
    Real.exp (-0.0001 * (1.0 : ℝ)) ≤ 1 := by
  constructor
  · have := Real.add_one_le_exp (-0.0001 * (1.0 : ℝ))
    nlinarith
  · rw [show (-0.0001 * (1.0 : ℝ)) = -0.0001 by norm_num]
    calc Real.exp (-0.0001) ≤ Real.exp 0 := Real.exp_le_exp.mpr (by norm_num)
    _ = 1 := Real.exp_zero

lemma gain_prod_le (b p s t a : ℝ)
    (hb0 : 0 ≤ b) (hb1 : b ≤ 1) (hp0 : 1 ≤ p) (hp1 : p ≤ 1.2)
    (hs0 : 0.7 ≤ s) (hs1 : s ≤ 1.3) (ht0 : 0.9 ≤ t) (ht1 : t ≤ 1.1)
    (ha0 : 0.9999 ≤ a) (ha1 : a ≤ 1) :
    b * p * s * t * a ≤ 1.8 := by
  have h1 : b * p ≤ 1.2 := by nlinarith
  have h1' : 0 ≤ b * p := by nlinarith
  have h2 : b * p * s ≤ 1.56 := by nlinarith
  have h2' : 0 ≤ b * p * s := by nlinarith
  have h3 : b * p * s * t ≤ 1.716 := by nlinarith
  have h3' : 0 ≤ b * p * s * t := by nlinarith
  nlinarith

/-- C8 amended: for every azimuth and elevation both HRTF gains are at least
0.01 (the clamp), and whenever the elevation lies in the physical range
`[-π/2, π/2]` both gains are bounded above by 1.8; for unrestricted
elevations no finite upper bound exists (see the counterexample). -/
theorem c8_hrtf_gain_bounds (az el : ℝ) :
    0.01 ≤ (getHRTF az el).left ∧ 0.01 ≤ (getHRTF az el).right ∧
    (|el| ≤ Real.pi / 2 → (getHRTF az el).left ≤ 1.8 ∧ (getHRTF az el).right ≤ 1.8) := by
  refine ⟨le_max_left _ _, le_max_left _ _, fun h => ?_⟩
  constructor
  · refine max_le (by norm_num) ?_
    exact gain_prod_le _ _ _ _ _ (base_bounds (az + Real.pi / 2)).1 (base_bounds _).2
      (pinna_ge_one el) (pinna_le el h) (shadow_bounds_left az).1 (shadow_bounds_left az).2
      (torso_bounds el).1 (torso_bounds el).2 air_bounds.1 air_bounds.2
  · refine max_le (by norm_num) ?_
    exact gain_prod_le _ _ _ _ _ (base_bounds (az - Real.pi / 2)).1 (base_bounds _).2
      (pinna_ge_one el) (pinna_le el h) (shadow_bounds_right az).1 (shadow_bounds_right az).2
      (torso_bounds el).1 (torso_bounds el).2 air_bounds.1 air_bounds.2



/-- C8 counterexample: the claim that the HRTF gains are bounded by some
fixed finite maximum for *all* `(φ, θ)` inputs is false — the pinna term
grows linearly with the elevation argument, so no bound `B` dominates both
gains at every input (refuted at azimuth `-π/2`, elevation `40·(|B|+1)`). -/
theorem c8_hrtf_unbounded_counterexample :
    ¬ ∃ B : ℝ, ∀ az el : ℝ, (getHRTF az el).left ≤ B ∧ (getHRTF az el).right ≤ B := by
  rintro ⟨B, hB⟩
  set el : ℝ := 40 * (|B| + 1) with hel_def
  have hel : (0 : ℝ) < el := by positivity
  have h : (getHRTF (-(Real.pi / 2)) el).left ≤ B := (hB (-(Real.pi / 2)) el).1
  have h' : max 0.01 ((0.5 + 0.5 * Real.cos (-(Real.pi / 2) + Real.pi / 2)) *
      getPinnaResponse el *
      (if 0 < -(Real.pi / 2) then 1.0 - 0.3 * Real.sin (-(Real.pi / 2)) else 1.0) *
      (1.0 + 0.1 * Real.cos el) * Real.exp (-0.0001 * 1.0)) ≤ B := h
  have hbase : (0.5 + 0.5 * Real.cos (-(Real.pi / 2) + Real.pi / 2)) = 1 := by
    rw [show -(Real.pi / 2) + Real.pi / 2 = 0 by ring, Real.cos_zero]
    norm_num
  have hshadow : (if 0 < -(Real.pi / 2) then 1.0 - 0.3 * Real.sin (-(Real.pi / 2)) else 1.0)
      = 1 := by
    rw [if_neg (by nlinarith [Real.pi_pos])]
    norm_num
  rw [hbase, hshadow] at h'
  have hub : 1 * getPinnaResponse el * 1 * (1.0 + 0.1 * Real.cos el) *
      Real.exp (-0.0001 * 1.0) ≤ B :=
    le_trans (le_max_right _ _) h'
  have hpinna : 1 + 4 * (|B| + 1) ≤ getPinnaResponse el := by
    unfold getPinnaResponse
    rw [if_pos hel]
    have hdiv : el / 2 ≤ el / (Real.pi / 2) := by
      apply div_le_div_of_nonneg_left hel.le (by positivity)
      nlinarith [Real.pi_le_four]
    have : el / 2 = 20 * (|B| + 1) := by rw [hel_def]; ring
    nlinarith
  have hpinna0 : 0 < getPinnaResponse el := by nlinarith [abs_nonneg B]
  have htorso := torso_bounds el
  have hair := air_bounds
  have hstep1 : (1 + 4 * (|B| + 1)) * 0.9 ≤ getPinnaResponse el * (1.0 + 0.1 * Real.cos el) := by
    nlinarith [abs_nonneg B]
  have hstep2 : ((1 + 4 * (|B| + 1)) * 0.9) * 0.9999 ≤
      (getPinnaResponse el * (1.0 + 0.1 * Real.cos el)) * Real.exp (-0.0001 * 1.0) := by
    nlinarith [abs_nonneg B, Real.exp_pos (-0.0001 * (1.0 : ℝ))]
  nlinarith [le_abs_self B, abs_nonneg B]


/-- C8 witness: the amended theorem at azimuth 0, elevation 0. -/
theorem c8_hrtf_gain_bounds_witness :
    0.01 ≤ (getHRTF 0 0).left ∧ (getHRTF 0 0).left ≤ 1.8 :=
  ⟨(c8_hrtf_gain_bounds 0 0).1,
    ((c8_hrtf_gain_bounds 0 0).2.2 (by rw [abs_zero]; positivity)).1⟩

/-! ## C6 — render error behaviour -/

/-- C6 counterexample: a decoded layer with 2 channels — `2` is not
`(order+1)²` for any order — renders *successfully* (the channels are copied
straight to left/right), instead of failing with a ChannelCountMismatch
error as claimed. -/
theorem c6_channel_mismatch_counterexample :
    createAudioBuffer [[(1 : ℝ) / 2], [(1 : ℝ) / 4]] =
        .ok ([some ((1 : ℝ) / 2)], [some ((1 : ℝ) / 4)]) ∧
    ∀ k : ℕ, (k + 1) ^ 2 ≠ 2 := by
  constructor
  · simp [createAudioBuffer]
  · intro k
    have : (k + 1) ^ 2 = (k + 1) * (k + 1) := sq (k + 1)
    rw [this]
    rcases k with _ | k
    · norm_num
    · nlinarith

/-- C6 amended: `createAudioBuffer` fails (with its invalid-format error)
when the channel list is empty and (with its empty-audio error) when the
per-channel sample count is 0; it performs *no* channel-count validation —
every nonempty channel list with a nonzero sample count renders without
error, whether or not its length is of the form `(order+1)²`. -/
theorem c6_render_error_behaviour (audioData : List (List ℝ)) :
    (audioData.length = 0 → createAudioBuffer audioData = .error .invalidFormat) ∧
    (audioData.length ≠ 0 → (audioData.getD 0 []).length = 0 →
      createAudioBuffer audioData = .error .noSamples) ∧
    (audioData.length ≠ 0 → (audioData.getD 0 []).length ≠ 0 →
      (createAudioBuffer audioData).isOk = true) := by
  refine ⟨fun h => ?_, fun h h2 => ?_, fun h h2 => ?_⟩
  · simp only [createAudioBuffer]
    rw [if_pos h]
  · simp only [createAudioBuffer]
    rw [if_neg h, if_pos h2]
  · simp only [createAudioBuffer]
    rw [if_neg h, if_neg h2]
    split_ifs <;> rfl

/-- C6 witness: a 1-channel, 1-sample layer renders without error. -/
theorem c6_render_error_witness :
    ([[(1 : ℝ)]].length ≠ 0) ∧ (([[(1 : ℝ)]].getD 0 []).length ≠ 0) ∧
    (createAudioBuffer [[(1 : ℝ)]]).isOk = true :=
  ⟨by simp, by simp, (c6_render_error_behaviour [[(1 : ℝ)]]).2.2 (by simp) (by simp)⟩

/-! ## C10 — low-channel-count direct copy -/

/-- C10 counterexample: for a 1-channel layer with sample count 0, rendering
*does* raise an error (the empty-audio throw), so the claim's "no error is
raised" does not hold for every 1-channel layer. -/
theorem c10_zero_sample_counterexample :
    createAudioBuffer [([] : List ℝ)] = .error .noSamples := by
  simp [createAudioBuffer]

/-- C10 amended: provided the per-channel sample count is nonzero, a
1-channel layer is copied into both outputs unchanged, and a 2- or 3-channel
layer has channel 0 copied to the left output and channel 1 to the right; in
these cases the virtual-speaker/HRTF pipeline is bypassed and no error is
raised.  (A 0-sample layer instead raises the empty-audio error.) -/
theorem c10_low_channel_copy (audioData : List (List ℝ)) :
    (audioData.length = 1 → (audioData.getD 0 []).length ≠ 0 →
      createAudioBuffer audioData =
        .ok ((audioData.getD 0 []).map some, (audioData.getD 0 []).map some)) ∧
    ((audioData.length = 2 ∨ audioData.length = 3) → (audioData.getD 0 []).length ≠ 0 →
      createAudioBuffer audioData =
        .ok ((audioData.getD 0 []).map some, (audioData.getD 1 []).map some)) := by
  constructor
  · intro h1 h2
    simp only [createAudioBuffer]
    rw [if_neg (by omega), if_neg h2, if_neg (by omega), if_neg (by omega)]
  · intro h1 h2
    simp only [createAudioBuffer]
    rw [if_neg (by omega), if_neg h2, if_neg (by omega), if_pos (by omega)]

/-- C10 witness: a concrete mono layer is duplicated to both ears. -/
theorem c10_low_channel_copy_witness :
    createAudioBuffer [[(1 : ℝ) / 2]] = .ok ([some ((1 : ℝ) / 2)], [some ((1 : ℝ) / 2)]) := by
  have h := (c10_low_channel_copy [[(1 : ℝ) / 2]]).1 (by simp) (by simp)
  simpa using h

/-! ## C1 / C4 — spherical-harmonic basis -/

lemma factorialsTable_eq : factorialsTable = [1, 1, 2, 6, 24, 120, 720, 5040] := by
  norm_num [factorialsTable, List.range_succ]

lemma factorialsTable_getD (i : ℕ) (h : i < 8) :
    factorialsTable.getD i 0 = (Nat.factorial i : ℝ) := by
  interval_cases i <;> norm_num [factorialsTable_eq, Nat.factorial]

lemma getD_map_range {β : Type} (n i : ℕ) (h : i < n) (f : ℕ → β) (d : β) :
    ((List.range n).map f).getD i d = f i := by
  rw [List.getD_eq_getElem _ _ (by simpa using h)]
  simp

/-- The decoder's normalization table agrees with the spec's
`normalization(l, m)` formula throughout its precomputed range. -/
lemma normLookup_eq_spec (l : ℕ) (hl : l ≤ 3) (m : ℤ) (hm : m.natAbs ≤ l) :
    normLookup l m =
      Real.sqrt ((2 * (l : ℝ) + 1) * (Nat.factorial (l - m.natAbs) : ℝ) /
        (4 * Real.pi * (Nat.factorial (l + m.natAbs) : ℝ))) := by
  have hkl : (m + l).toNat < 2 * l + 1 := by omega
  unfold normLookup normalizationFactors
  rw [getD_map_range _ _ (by omega), getD_map_range _ _ hkl]
  have habs : ((((m + l).toNat : ℕ) : ℤ) - (l : ℤ)).natAbs = m.natAbs := by omega
  rw [habs]
  dsimp only
  rw [factorialsTable_getD _ (by omega), factorialsTable_getD _ (by omega)]

lemma legendreP_eval_self (x : ℝ) (m l : ℕ) (h : l = m) :
    legendreP x m l = legendreDiag x m := by
  subst h
  rw [legendreP, dif_neg (lt_irrefl l), dif_pos rfl]

lemma legendreP_eval_succ (x : ℝ) (m l : ℕ) (h : l = m + 1) :
    legendreP x m l = x * (2 * (m : ℝ) + 1) * legendreDiag x m := by
  subst h
  rw [legendreP, dif_neg (by omega), dif_neg (by omega), dif_pos rfl]

lemma legendreP_eval_step (x : ℝ) (m l : ℕ) (h : m + 2 ≤ l) :
    legendreP x m l =
      ((2 * (l : ℝ) - 1) * x * legendreP x m (l - 1) -
          ((l : ℝ) + (m : ℝ) - 1) * legendreP x m (l - 2)) /
        ((l : ℝ) - (m : ℝ)) := by
  rw [legendreP, dif_neg (by omega), dif_neg (by omega), dif_neg (by omega)]

set_option maxRecDepth 8000 in
/-- The decoder's array-filling three-loop Legendre computation produces
exactly the spec's three-term-recurrence values, for every table entry it
can be asked for (`m ≤ l ≤ order ≤ 3`). -/
lemma legendre_table_eq (order : ℕ) (h : order ≤ 3) (x : ℝ) (l m : ℕ)
    (hl : l ≤ order) (hm : m ≤ l) :
    computeAssociatedLegendre order x l m = legendreP x m l := by
  interval_cases order <;> interval_cases l <;> interval_cases m <;>
    · simp only [computeAssociatedLegendre, List.range_succ, List.range_zero,
        List.foldl_nil, List.foldl_cons, List.foldl_append, updM]
      norm_num [updM, legendreP_eval_self, legendreP_eval_succ, legendreP_eval_step,
        legendreDiag]
      try ring
      try tauto

/-- C1 amended: for every order the decoder supports (0 ≤ order ≤ 3, the
range of its precomputed normalization table — for order ≥ 4 the table
lookup throws) and every azimuth/elevation, the decoder's recurrence-based
basis vector equals, entry for entry, the spec formula
`normalization(l,m) · P(l,|m|)(sin elevation) · {1, √2·cos(mφ), √2·sin(|m|φ)}`.
The renderer's closed-form computation does *not* compute this formula — see
the counterexample, where it returns `1.0` for `l = 0` while the formula
gives `1/(2√π)`. -/
theorem c1_decoder_basis_matches_spec_formula (order : ℕ) (h : order ≤ 3) (az el : ℝ) :
    computeSphericalHarmonicsVectorized order az el = specBasisList order az el := by
  unfold computeSphericalHarmonicsVectorized specBasisList
  try dsimp only
  refine List.flatMap_congr fun l hl => ?_
  refine List.map_congr_left fun k hk => ?_
  have hl' : l ≤ order := by
    have := List.mem_range.mp hl
    omega
  have hk' : k < 2 * l + 1 := List.mem_range.mp hk
  try dsimp only
  have habs : ((k : ℤ) - l).natAbs ≤ l := by omega
  unfold specBasisCoefficient
  rw [normLookup_eq_spec l (le_trans hl' h) _ habs]
  rw [legendre_table_eq order h (Real.sin el) l ((k : ℤ) - l).natAbs hl' (by omega)]
  rcases lt_trichotomy ((k : ℤ) - l) 0 with hmlt | hmeq | hmgt
  · rw [if_neg (by omega), if_pos hmlt, if_neg (by omega), if_neg (by omega)]
    try ring
  · rw [if_neg (by omega), if_neg (by omega), if_pos hmeq]
    try ring
  · rw [if_pos hmgt, if_neg (by omega), if_pos hmgt]
    try ring

/-- C1 witness: the amended theorem at order 1, azimuth 0, elevation 0. -/
theorem c1_decoder_basis_witness :
    (1 : ℕ) ≤ 3 ∧ computeSphericalHarmonicsVectorized 1 0 0 = specBasisList 1 0 0 :=
  ⟨by norm_num, c1_decoder_basis_matches_spec_formula 1 (by norm_num) 0 0⟩

lemma sqrt_inv_four_pi_lt_one : Real.sqrt (1 / (4 * Real.pi)) < 1 := by
  have harg : (1 : ℝ) / (4 * Real.pi) < 1 := by
    rw [div_lt_one (by positivity)]
    nlinarith [Real.pi_gt_three]
  calc Real.sqrt (1 / (4 * Real.pi)) < Real.sqrt 1 :=
        Real.sqrt_lt_sqrt (by positivity) harg
  _ = 1 := Real.sqrt_one

/-- C1 counterexample: at degree 0 (any direction) the renderer's
`realSphericalHarmonic` returns `1.0`, while the claimed formula gives
`sqrt(1/(4π)) = 1/(2√π) ≈ 0.2821`, so the claim's "this holds for both
computations" is false for the renderer. -/
theorem c1_renderer_coefficient_counterexample :
    realSphericalHarmonic 0 0 0 0 = 1 ∧
    specBasisCoefficient 0 0 0 0 = Real.sqrt (1 / (4 * Real.pi)) ∧
    realSphericalHarmonic 0 0 0 0 ≠ specBasisCoefficient 0 0 0 0 := by
  have h1 : realSphericalHarmonic 0 0 0 0 = 1 := by norm_num [realSphericalHarmonic]
  have h2 : specBasisCoefficient 0 0 0 0 = Real.sqrt (1 / (4 * Real.pi)) := by
    unfold specBasisCoefficient
    simp only [Int.natAbs_zero]
    rw [legendreP_eval_self _ _ _ rfl]
    norm_num [legendreDiag]
  refine ⟨h1, h2, ?_⟩
  rw [h1, h2]
  exact ne_of_gt sqrt_inv_four_pi_lt_one

lemma sh_list_length {β : Type} (n : ℕ) (f : ℕ → ℕ → β) :
    ((List.range n).flatMap fun l => (List.range (2 * l + 1)).map (f l)).length = n ^ 2 := by
  induction n with
  | zero => simp
  | succ k ih =>
    rw [List.range_succ, List.flatMap_append]
    simp only [List.length_append, ih]
    simp
    ring

lemma sh_list_getD_zero {β : Type} (n : ℕ) (hn : 0 < n) (f : ℕ → ℕ → β) (d : β) :
    ((List.range n).flatMap fun l => (List.range (2 * l + 1)).map (f l)).getD 0 d = f 0 0 := by
  obtain ⟨k, rfl⟩ : ∃ k, n = k + 1 := ⟨n - 1, by omega⟩
  rw [List.range_succ_eq_map]
  simp [List.range_succ]

/-- The first decoder basis coefficient is `sqrt(1/(4π))`, not `1.0`. -/
lemma decoder_basis_head (order : ℕ) (h : order ≤ 3) (az el : ℝ) :
    (computeSphericalHarmonicsVectorized order az el).getD 0 0 =
      Real.sqrt (1 / (4 * Real.pi)) := by
  unfold computeSphericalHarmonicsVectorized
  try dsimp only
  rw [sh_list_getD_zero (order + 1) (by omega)]
  norm_num
  rw [normLookup_eq_spec 0 (by omega) 0 (by simp)]
  rw [legendre_table_eq order h (Real.sin el) 0 0 (by omega) (le_refl 0)]
  rw [legendreP_eval_self _ _ _ rfl]
  norm_num [legendreDiag]

/-- The renderer's first basis coefficient is `1.0`. -/
lemma renderer_basis_head (az el : ℝ) (numChannels : ℕ) (h : 0 < Nat.sqrt numChannels) :
    (computeSphericalHarmonics az el numChannels).getD 0 0 = 1 := by
  unfold computeSphericalHarmonics
  rw [sh_list_getD_zero _ h]
  norm_num [realSphericalHarmonic]

/-- C4 amended: for every supported order (≤ 3, the decoder's precomputed
normalization range) both basis computations return exactly `(order+1)²`
coefficients; the renderer's coefficient 0 equals `1.0` as claimed, but the
decoder's coefficient 0 equals `sqrt(1/(4π)) ≈ 0.2821`, not `1.0`. -/
theorem c4_basis_count_and_first_coefficient (order : ℕ) (h : order ≤ 3) (az el : ℝ) :
    (computeSphericalHarmonicsVectorized order az el).length = (order + 1) ^ 2 ∧
    (computeSphericalHarmonics az el ((order + 1) ^ 2)).length = (order + 1) ^ 2 ∧
    (computeSphericalHarmonics az el ((order + 1) ^ 2)).getD 0 0 = 1 ∧
    (computeSphericalHarmonicsVectorized order az el).getD 0 0 =
      Real.sqrt (1 / (4 * Real.pi)) := by
  have hsq : Nat.sqrt ((order + 1) ^ 2) = order + 1 := Nat.sqrt_eq' (order + 1)
  refine ⟨?_, ?_, ?_, decoder_basis_head order h az el⟩
  · unfold computeSphericalHarmonicsVectorized
    try dsimp only
    exact sh_list_length (order + 1) _
  · unfold computeSphericalHarmonics
    rw [hsq]
    exact sh_list_length (order + 1) _
  · exact renderer_basis_head az el _ (by rw [hsq]; omega)

/-- C4 witness: the amended theorem at order 1, direction (0, 0). -/
theorem c4_basis_witness :
    (1 : ℕ) ≤ 3 ∧ (computeSphericalHarmonicsVectorized 1 0 0).length = 4 :=
  ⟨by norm_num, by simpa using (c4_basis_count_and_first_coefficient 1 (by norm_num) 0 0).1⟩

/-- C4 counterexample: the decoder's coefficient at index 0 is
`sqrt(1/(4π)) ≈ 0.2821`, not `1.0` as the claim requires of both
implementations. -/
theorem c4_decoder_first_coefficient_counterexample :
    (computeSphericalHarmonicsVectorized 0 0 0).getD 0 0 = Real.sqrt (1 / (4 * Real.pi)) ∧
    (computeSphericalHarmonicsVectorized 0 0 0).getD 0 0 ≠ 1 := by
  refine ⟨decoder_basis_head 0 (by norm_num) 0 0, ?_⟩
  rw [decoder_basis_head 0 (by norm_num) 0 0]
  exact ne_of_lt sqrt_inv_four_pi_lt_one

/-! ## C9 — buffer pool contract -/

lemma findFreeIdx_some {s : List PoolBuf} {size i : ℕ} (h : findFreeIdx s size = some i) :
    ∃ b, s.get? i = some b ∧ b.data.length = size ∧ b.inUse = false := by
  induction s generalizing i with
  | nil => simp [findFreeIdx] at h
  | cons hd tl ih =>
    rw [findFreeIdx] at h
    split_ifs at h with hc
    · have h0 : (0 : ℕ) = i := by simpa using h
      subst h0
      exact ⟨hd, rfl, hc.1, hc.2⟩
    · rcases Option.map_eq_some'.mp h with ⟨j, hj, rfl⟩
      obtain ⟨b, hb, hlen, hus⟩ := ih hj
      exact ⟨b, by simpa using hb, hlen, hus⟩

lemma findFreeIdx_none {s : List PoolBuf} {size : ℕ} (h : findFreeIdx s size = none) :
    ∀ b ∈ s, ¬(b.data.length = size ∧ b.inUse = false) := by
  induction s with
  | nil => simp
  | cons hd tl ih =>
    rw [findFreeIdx] at h
    split_ifs at h with hc
    intro b hb hcon
    have h' : findFreeIdx tl size = none := by simpa using h
    rcases List.mem_cons.mp hb with rfl | hmem
    · exact hc hcon
    · exact ih h' b hmem hcon

lemma markUsed_get_self (s : List PoolBuf) (i : ℕ) :
    (markUsed s i).get? i = (s.get? i).map fun b => { b with inUse := true } := by
  induction s generalizing i with
  | nil => simp [markUsed]
  | cons hd tl ih =>
    cases i with
    | zero => simp [markUsed]
    | succ n => simpa [markUsed] using ih n

lemma markUsed_mem {s : List PoolBuf} {i : ℕ} {b : PoolBuf} (h : b ∈ markUsed s i) :
    b ∈ s ∨ b.inUse = true := by
  induction s generalizing i with
  | nil => simp [markUsed] at h
  | cons hd tl ih =>
    cases i with
    | zero =>
      rcases List.mem_cons.mp h with rfl | hmem
      · right; rfl
      · left; exact List.mem_cons_of_mem _ hmem
    | succ n =>
      rcases List.mem_cons.mp h with rfl | hmem
      · left; exact List.mem_cons_self _ _
      · rcases ih hmem with h' | h'
        · left; exact List.mem_cons_of_mem _ h'
        · right; exact h'

lemma findFreeIdx_lt {s : List PoolBuf} {size i : ℕ} (h : findFreeIdx s size = some i) :
    i < s.length := by
  obtain ⟨b, hb, -, -⟩ := findFreeIdx_some h
  exact List.get?_eq_some.mp hb |>.fst

lemma releaseAt_mem {s : List PoolBuf} {i : ℕ} {b : PoolBuf} (h : b ∈ releaseAt s i) :
    b ∈ s ∨ (b.inUse = false ∧ b.data = List.replicate b.data.length 0) := by
  induction s generalizing i with
  | nil => simp [releaseAt] at h
  | cons hd tl ih =>
    cases i with
    | zero =>
      rcases List.mem_cons.mp h with rfl | hmem
      · split_ifs with hu
        · right
          refine ⟨rfl, ?_⟩
          simp
        · left; exact List.mem_cons_self _ _
      · left; exact List.mem_cons_of_mem _ hmem
    | succ n =>
      rcases List.mem_cons.mp h with rfl | hmem
      · left; exact List.mem_cons_self _ _
      · rcases ih hmem with h' | h'
        · left; exact List.mem_cons_of_mem _ h'
        · right; exact h'

lemma writeBuf_mem {s : List PoolBuf} {i : ℕ} {d : List ℝ} {b : PoolBuf}
    (h : b ∈ writeBuf s i d) : b ∈ s ∨ b.inUse = true := by
  induction s generalizing i with
  | nil => simp [writeBuf] at h
  | cons hd tl ih =>
    cases i with
    | zero =>
      rcases List.mem_cons.mp h with rfl | hmem
      · split_ifs with hu
        · right; rfl
        · left; exact List.mem_cons_self _ _
      · left; exact List.mem_cons_of_mem _ hmem
    | succ n =>
      rcases List.mem_cons.mp h with rfl | hmem
      · left; exact List.mem_cons_self _ _
      · rcases ih hmem with h' | h'
        · left; exact List.mem_cons_of_mem _ h'
        · right; exact h'

lemma poolInv_step (s : List PoolBuf) (op : PoolOp) (h : PoolInv s) : PoolInv (stepPool s op) := by
  cases op with
  | acq size =>
    simp only [stepPool, acquire]
    cases hf : findFreeIdx s size with
    | some i =>
      intro b hb hbu
      rcases markUsed_mem hb with hmem | htrue
      · exact h b hmem hbu
      · rw [htrue] at hbu; simp at hbu
    | none =>
      intro b hb hbu
      rcases List.mem_append.mp hb with hmem | hmem
      · exact h b hmem hbu
      · simp at hmem
        subst hmem
        simp at hbu
  | rel i =>
    intro b hb hbu
    rcases releaseAt_mem hb with hmem | ⟨-, hdata⟩
    · exact h b hmem hbu
    · exact hdata
  | write i d =>
    intro b hb hbu
    rcases writeBuf_mem hb with hmem | htrue
    · exact h b hmem hbu
    · rw [htrue] at hbu; simp at hbu

lemma poolInv_run (ops : List PoolOp) : PoolInv (runPool ops) := by
  suffices hgen : ∀ s, PoolInv s → PoolInv (ops.foldl stepPool s) by
    exact hgen [] (by intro b hb; simp at hb)
  induction ops with
  | nil => intro s hs; exact hs
  | cons op rest ih => intro s hs; exact ih _ (poolInv_step s op hs)

/-- C9: after any sequence of acquire/release/client-write operations,
`acquire(size)` hands out a buffer of exactly length `size` that is
zero-filled and marked in use; the slot it reuses was not in use beforehand
(a buffer is never handed out twice while held); and it reuses an existing
slot exactly when some free buffer of matching size exists, allocating a new
one otherwise. -/
theorem c9_pool_acquire_contract (ops : List PoolOp) (size : ℕ) :
    ∃ b, (acquire (runPool ops) size).1.get? (acquire (runPool ops) size).2 = some b ∧
      b.data.length = size ∧ b.data = List.replicate size 0 ∧ b.inUse = true ∧
      (∀ b0, (runPool ops).get? (acquire (runPool ops) size).2 = some b0 →
        b0.inUse = false) ∧
      ((∃ b0 ∈ runPool ops, b0.data.length = size ∧ b0.inUse = false) ↔
        (acquire (runPool ops) size).2 < (runPool ops).length) := by
  have hinv : PoolInv (runPool ops) := poolInv_run ops
  set s := runPool ops with hs
  cases hf : findFreeIdx s size with
  | some i =>
    obtain ⟨b0, hb0get, hb0len, hb0use⟩ := findFreeIdx_some hf
    have hlt : i < s.length := findFreeIdx_lt hf
    have hzero : b0.data = List.replicate size 0 := by
      have hz := hinv b0 (List.get?_mem hb0get) hb0use
      rw [hb0len] at hz
      exact hz
    have hidx : (acquire s size).2 = i := by simp [acquire, hf]
    have hfst : (acquire s size).1 = markUsed s i := by simp [acquire, hf]
    refine ⟨{ b0 with inUse := true }, ?_, hb0len, hzero, rfl, ?_, ?_⟩
    · rw [hidx, hfst, markUsed_get_self, hb0get]
      rfl
    · intro b0' hb0'
      rw [hidx, hb0get] at hb0'
      cases hb0'
      exact hb0use
    · rw [hidx]
      exact ⟨fun _ => hlt, fun _ => ⟨b0, List.get?_mem hb0get, hb0len, hb0use⟩⟩
  | none =>
    have hidx : (acquire s size).2 = s.length := by simp [acquire, hf]
    have hfst : (acquire s size).1 = s ++ [⟨List.replicate size 0, true⟩] := by
      simp [acquire, hf]
    refine ⟨⟨List.replicate size 0, true⟩, ?_, by simp, rfl, rfl, ?_, ?_⟩
    · rw [hidx, hfst]
      exact List.get?_concat_length s _
    · intro b0 hb0
      rw [hidx] at hb0
      rw [List.get?_eq_none.mpr (le_refl _)] at hb0
      cases hb0
    · rw [hidx]
      constructor
      · rintro ⟨b0, hmem, hlen, huse⟩
        exact absurd ⟨hlen, huse⟩ (findFreeIdx_none hf b0 hmem)
      · intro hcon
        exact absurd hcon (lt_irrefl _)


/-- C9 witness: the contract applied to the concrete history
`[acquire 2, release 0]` with request size 2. -/
theorem c9_pool_acquire_witness :
    ∃ b, (acquire (runPool [PoolOp.acq 2, PoolOp.rel 0]) 2).1.get?
        (acquire (runPool [PoolOp.acq 2, PoolOp.rel 0]) 2).2 = some b ∧
      b.data.length = 2 ∧ b.data = List.replicate 2 0 ∧ b.inUse = true ∧
      (∀ b0, (runPool [PoolOp.acq 2, PoolOp.rel 0]).get?
          (acquire (runPool [PoolOp.acq 2, PoolOp.rel 0]) 2).2 = some b0 →
        b0.inUse = false) ∧
      ((∃ b0 ∈ runPool [PoolOp.acq 2, PoolOp.rel 0], b0.data.length = 2 ∧ b0.inUse = false) ↔
        (acquire (runPool [PoolOp.acq 2, PoolOp.rel 0]) 2).2 <
          (runPool [PoolOp.acq 2, PoolOp.rel 0]).length) :=
  c9_pool_acquire_contract [PoolOp.acq 2, PoolOp.rel 0] 2

end Shac
